import Mathlib

/-!
Verification development for the coastal-calibration stage-orchestration
core (NOAA-OWP/nwm-coastal).

The development shallowly embeds, in Lean 4:
  * the SLURM batch-job controller of
    src/coastal_calibration/utils/slurm.py (state parsing, status
    polling, the wait loop, availability pre-flight);
  * the external-process failure handling of
    src/coastal_calibration/stages/base.py (run_shell_script and
    run_singularity_command error paths);
  * the runner's stage planning, submission partitioning and
    promoted-stage dependency preparation.  The runner module itself is
    not part of the source tree available here (only its test-suite is),
    so these three are modelled from the specification's contracts and
    marked as such in their doc comments.

Subprocess invocations are embedded as explicit response values: a
response is either an OS-level launch failure (the command binary is
absent) or a completed process carrying an exit code and captured
standard output.  Wall-clock time in the polling loop is embedded as
poll-count arithmetic (n polls at a fixed interval have elapsed
n * interval seconds).
-/

/-! ## String helpers

Executable, structurally recursive counterparts of the Python string
operations used by the embedded code (str.strip, str.upper,
str.split, str.startswith, the "in" substring test, negative-index
slicing, and int()).  They operate on String.data so that every
definition reduces inside the kernel. -/

/-- Python str.strip(): drop whitespace from both ends. -/
def strTrim (s : String) : String :=
  ⟨((s.data.dropWhile Char.isWhitespace).reverse.dropWhile Char.isWhitespace).reverse⟩

/-- Python str.upper() (ASCII case mapping, which covers every SLURM
state token the embedded code compares against). -/
def strToUpper (s : String) : String :=
  ⟨s.data.map Char.toUpper⟩

/-- Python s.startswith(p). -/
def strStartsWith (p s : String) : Bool :=
  s.data.take p.data.length == p.data

/-- Split a character list at every occurrence of the separator
character; mirrors Python str.split(sep) for a one-character
separator (so the result is never empty, and an empty input yields
one empty field). -/
def splitChars (sep : Char) : List Char → List (List Char)
  | [] => [[]]
  | c :: cs =>
    match splitChars sep cs with
    | [] => [[c]]
    | f :: fs => if c == sep then [] :: f :: fs else (c :: f) :: fs

/-- Python s.split(sep) for a one-character separator. -/
def splitStr (sep : Char) (s : String) : List String :=
  (splitChars sep s.data).map (fun cs => ⟨cs⟩)

/-- Bool test for "pat appears as a contiguous substring of l". -/
def charsHaveSub (pat : List Char) : List Char → Bool
  | [] => pat.isEmpty
  | c :: cs => ((c :: cs).take pat.length == pat) || charsHaveSub pat cs

/-- Python "pat in s" substring membership. -/
def strContainsSub (s pat : String) : Bool :=
  charsHaveSub pat.data s.data

/-- Python s[-n:] — the last n characters of s (all of s when s has at
most n characters). -/
def lastChars (n : Nat) (s : String) : String :=
  ⟨s.data.drop (s.data.length - n)⟩

/-- Digit-string value, or none when the list is empty or holds a
non-digit. -/
def digitsVal? (cs : List Char) : Option Nat :=
  if cs ≠ [] && cs.all Char.isDigit then
    some (cs.foldl (fun a c => a * 10 + (c.toNat - 48)) 0)
  else none

/-- Python int(s) restricted to optionally signed decimal literals
(whitespace stripped), returning none where Python raises ValueError. -/
def intFromStr? (s : String) : Option Int :=
  match (strTrim s).data with
  | '-' :: rest => (digitsVal? rest).map (fun n => -(n : Int))
  | '+' :: rest => (digitsVal? rest).map (fun n => (n : Int))
  | cs => (digitsVal? cs).map (fun n => (n : Int))

/-! ## SLURM job states and statuses

From src/coastal_calibration/utils/slurm.py lines 21-47. -/

/-- JobState enum (slurm.py lines 21-33). -/
inductive JobState where
  | PENDING
  | CONFIGURING
  | RUNNING
  | COMPLETING
  | COMPLETED
  | FAILED
  | CANCELLED
  | TIMEOUT
  | NODE_FAIL
  | UNKNOWN
deriving DecidableEq, Repr

/-- The StrEnum value of each JobState member. -/
def jobStateStr : JobState → String
  | .PENDING => "PENDING"
  | .CONFIGURING => "CONFIGURING"
  | .RUNNING => "RUNNING"
  | .COMPLETING => "COMPLETING"
  | .COMPLETED => "COMPLETED"
  | .FAILED => "FAILED"
  | .CANCELLED => "CANCELLED"
  | .TIMEOUT => "TIMEOUT"
  | .NODE_FAIL => "NODE_FAIL"
  | .UNKNOWN => "UNKNOWN"

/-- Python JobState(s): value lookup in the StrEnum, none where Python
raises ValueError. -/
def jobStateOfString (s : String) : Option JobState :=
  if s == "PENDING" then some .PENDING
  else if s == "CONFIGURING" then some .CONFIGURING
  else if s == "RUNNING" then some .RUNNING
  else if s == "COMPLETING" then some .COMPLETING
  else if s == "COMPLETED" then some .COMPLETED
  else if s == "FAILED" then some .FAILED
  else if s == "CANCELLED" then some .CANCELLED
  else if s == "TIMEOUT" then some .TIMEOUT
  else if s == "NODE_FAIL" then some .NODE_FAIL
  else if s == "UNKNOWN" then some .UNKNOWN
  else none

/-- JobStatus dataclass (slurm.py lines 36-46), with the dataclass
field defaults. -/
structure JobStatus where
  job_id : String
  state : JobState
  name : String := ""
  node_list : String := ""
  exit_code : Option Int := none
  elapsed_time : String := ""
  reason : String := ""
deriving DecidableEq, Repr

/-- The terminal-state set used by get_job_status (slurm.py lines
154-160) and by the wait loop (lines 211-217). -/
def isTerminalState : JobState → Bool
  | .COMPLETED | .FAILED | .CANCELLED | .TIMEOUT | .NODE_FAIL => true
  | _ => false

/-- A completed subprocess: exit code and captured standard output.
Standard error is not read by any slurm.py code path embedded here. -/
structure ProcResult where
  rc : Int
  stdout : String
deriving DecidableEq, Repr

/-- SlurmManager._parse_state (slurm.py lines 103-111): strip and
upper-case the state string; anything beginning with CANCELLED
(including suffixed forms such as "CANCELLED by uid") is CANCELLED;
otherwise look the string up in the enum, defaulting to UNKNOWN. -/
def parse_state (s : String) : JobState :=
  let n := strToUpper (strTrim s)
  if strStartsWith "CANCELLED" n then JobState.CANCELLED
  else
    match jobStateOfString n with
    | some st => st
    | none => JobState.UNKNOWN

/-- Build the JobStatus from one pipe-split sacct line (slurm.py lines
138-151): defaulted field access past the end of the list, exit code
taken from the colon-separated pair when field 4 is non-empty. -/
def mkSacctStatus (parts : List String) : JobStatus :=
  { job_id := parts.headD ""
    name := parts.getD 1 ""
    state :=
      match parts.get? 2 with
      | some s => parse_state s
      | none => JobState.UNKNOWN
    node_list := parts.getD 3 ""
    exit_code :=
      match parts.get? 4 with
      | some p4 => if p4 != "" then intFromStr? ((splitStr ':' p4).headD "") else none
      | none => none
    elapsed_time := parts.getD 5 ""
    reason := parts.getD 6 "" }

/-- Scan the sacct output lines for the first line whose job-id field
is the job id or a sub-step of it, skipping .batch/.extern sub-steps
(slurm.py lines 132-152). -/
def sacctFindStatus (jobId : String) : List String → Option JobStatus
  | [] => none
  | line :: rest =>
    let parts := splitStr '|' line
    let jidField := parts.headD ""
    if jidField == jobId || strStartsWith (jobId ++ ".") jidField then
      if strContainsSub jidField ".batch" || strContainsSub jidField ".extern" then
        sacctFindStatus jobId rest
      else some (mkSacctStatus parts)
    else sacctFindStatus jobId rest

/-- The sacct phase of get_job_status (slurm.py lines 129-152): a
status is extracted only when sacct exited 0 with non-empty output. -/
def sacctStatusOf (jobId : String) (r : ProcResult) : Option JobStatus :=
  if r.rc == 0 && strTrim r.stdout != "" then
    sacctFindStatus jobId (splitStr '\n' (strTrim r.stdout))
  else none

/-- Build the JobStatus from squeue output (slurm.py lines 180-188):
the whole stripped stdout is pipe-split. -/
def parseSqueueStatus (stdout : String) : JobStatus :=
  let parts := splitStr '|' (strTrim stdout)
  { job_id := parts.headD ""
    name := parts.getD 1 ""
    state :=
      match parts.get? 2 with
      | some s => parse_state s
      | none => JobState.UNKNOWN
    node_list := parts.getD 3 ""
    reason := parts.getD 4 "" }

/-- The squeue phase of get_job_status (slurm.py lines 166-191): a
launch failure of squeue propagates; a clean squeue report is parsed;
otherwise the sacct-derived status of this poll is returned when one
exists, else an UNKNOWN status. -/
def squeuePhase (jobId : String) (sacctSt : Option JobStatus)
    (squeue : Except Unit ProcResult) : Except Unit JobStatus :=
  match squeue with
  | .error e => .error e
  | .ok r2 =>
    if r2.rc == 0 && strTrim r2.stdout != "" then
      .ok (parseSqueueStatus r2.stdout)
    else
      match sacctSt with
      | some st => .ok st
      | none => .ok { job_id := jobId, state := JobState.UNKNOWN }

/-- SlurmManager.get_job_status (slurm.py lines 113-191), parameterised
by the two subprocess responses.  A launch failure (absent command
binary, Python FileNotFoundError) is the Except error and propagates
uncaught; a completed command, whatever its exit code, never does. -/
def get_job_status (jobId : String) (sacct squeue : Except Unit ProcResult) :
    Except Unit JobStatus :=
  match sacct with
  | .error e => .error e
  | .ok r =>
    match sacctStatusOf jobId r with
    | some st =>
      if isTerminalState st.state then .ok st
      else squeuePhase jobId (some st) squeue
    | none => squeuePhase jobId none squeue

/-- SlurmManager._check_slurm_available (slurm.py lines 52-62): the
init-time pre-flight probe runs squeue --version with check=True and
converts both a launch failure and a non-zero exit into the hard
RuntimeError. -/
def check_slurm_available (probe : Except Unit ProcResult) : Except String Unit :=
  match probe with
  | .error _ =>
    .error "SLURM commands not available. Ensure you are on a cluster with SLURM."
  | .ok r =>
    if r.rc != 0 then
      .error "SLURM commands not available. Ensure you are on a cluster with SLURM."
    else .ok ()

/-- The timeout test of the wait loop (slurm.py line 220): Python's
"if timeout and elapsed > timeout" is false for a missing timeout and
for a zero timeout. -/
def timeoutHit (timeout : Option Nat) (elapsed : Nat) : Bool :=
  match timeout with
  | none => false
  | some t => t != 0 && decide (t < elapsed)

/-- The polling loop of SlurmManager.wait_for_job (slurm.py lines
204-224), parameterised by the sequence of statuses the poll observes
(poll n sees sts n) and by fuel bounding the number of iterations
modelled; elapsed wall-clock time at poll n is n * pollInterval
(n sleeps of pollInterval seconds have occurred).  none means the
fuel ran out with the loop still running. -/
def wait_poll (sts : Nat → JobStatus) (pollInterval : Nat) (timeout : Option Nat) :
    Nat → Nat → Option JobStatus
  | _, 0 => none
  | n, fuel + 1 =>
    let status := sts n
    if isTerminalState status.state then some status
    else if timeoutHit timeout (n * pollInterval) then some status
    else wait_poll sts pollInterval timeout (n + 1) fuel

/-- SlurmManager.wait_for_job (slurm.py lines 193-224): run the poll
loop from poll 0. -/
def wait_for_job (sts : Nat → JobStatus) (pollInterval : Nat) (timeout : Option Nat)
    (fuel : Nat) : Option JobStatus :=
  wait_poll sts pollInterval timeout 0 fuel

/-- The loop-exit condition at poll n: a terminal state was observed,
or the (soft) timeout has elapsed. -/
def stopCond (sts : Nat → JobStatus) (pollInterval : Nat) (timeout : Option Nat)
    (n : Nat) : Bool :=
  isTerminalState (sts n).state || timeoutHit timeout (n * pollInterval)

/-! ## Stage external-process failure handling

From src/coastal_calibration/stages/base.py.  The two process-launching
helpers are embedded as functions of the child's exit code and captured
standard-error text, returning the messages written to the monitor log
together with the outcome (ok, or the raised RuntimeError's message). -/

/-- Python " ".join(l). -/
def joinSpace : List String → String
  | [] => ""
  | [x] => x
  | x :: xs => x ++ " " ++ joinSpace xs

/-- WorkflowStage.run_shell_script outcome (base.py lines 148-179): on
a non-zero exit code, a return-code log line is written, the captured
standard error (when non-empty) is logged truncated to its last 2000
characters, and a RuntimeError carrying the full untruncated standard
error is raised. -/
def run_shell_script_model (script_path : String) (rc : Int) (stderr : String) :
    List String × Except String Unit :=
  let logs := ["Running script: " ++ script_path]
  if rc != 0 then
    let logs := logs ++ ["Script failed with return code " ++ toString rc]
    let logs := if stderr != "" then logs ++ ["STDERR: " ++ lastChars 2000 stderr] else logs
    (logs, .error ("Script " ++ script_path ++ " failed: " ++ stderr))
  else (logs, .ok ())

/-- WorkflowStage.run_singularity_command outcome (base.py lines
257-298): on a non-zero exit code of the drained child process, the
standard error is logged truncated to its last 2000 characters and a
RuntimeError carrying the full untruncated standard error is raised. -/
def run_singularity_model (command : List String) (rc : Int) (stderr : String) :
    List String × Except String Unit :=
  let logs := ["Running Singularity command: " ++ joinSpace (command.take 3) ++ "..."]
  if rc != 0 then
    (logs ++ ["Singularity command failed: " ++ lastChars 2000 stderr],
     .error ("Singularity command failed: " ++ stderr))
  else (logs, .ok ())

/-! ## Stage planning, submission partitioning, dependency preparation

The runner module (coastal_calibration/runner.py) is not among the
source files available here — only its test-suite
(tests/test_runner.py) is — so the three functions below are modelled
from the specification's component contracts. -/

/-- Modelled from the spec: CoastalCalibRunner._split_stages_for_submit
(the SubmissionPartitioner, spec section 4.2; the runner module is
absent from the source tree).  The job span runs from the first to the
last containerized stage; every non-containerized stage before the
span's end — those before the span and the runs strictly between two
containerized stages, which are promoted — goes to pre_job, the
non-containerized stages after the span go to post_job, and when no
stage is containerized everything is pre_job. -/
def split_stages_for_submit (isContainerized : String → Bool) (stages : List String) :
    List String × List String × List String :=
  if stages.any isContainerized then
    let rest := (stages.reverse.dropWhile (fun s => !isContainerized s)).reverse
    let post := (stages.reverse.takeWhile (fun s => !isContainerized s)).reverse
    (rest.filter (fun s => !isContainerized s), rest.filter isContainerized, post)
  else (stages, [], [])

/-- Modelled from the spec: resolution of one start/stop bound for
CoastalCalibRunner._get_stages_to_run (the StagePlanner, spec section
4.1; the runner module is absent from the source tree).  A named bound
must be present in the stage order or an "Unknown stage" configuration
error names the offending value; an omitted bound resolves to the
given default position. -/
def resolveBound (stageOrder : List String) (bound : Option String) (dflt : Nat) :
    Except String Nat :=
  match bound with
  | none => .ok dflt
  | some s =>
    if stageOrder.contains s then .ok (stageOrder.findIdx (fun x => x == s))
    else .error ("Unknown stage: " ++ s)

/-- Modelled from the spec: the bounds-only planning step of
CoastalCalibRunner._get_stages_to_run — the contiguous slice of the
stage order from the start bound (default: the first stage) through
the stop bound (default: the last stage), inclusive. -/
def planned_slice (stageOrder : List String) (startFrom stopAfter : Option String) :
    Except String (List String) :=
  match resolveBound stageOrder startFrom 0,
        resolveBound stageOrder stopAfter (stageOrder.length - 1) with
  | .error e, _ => .error e
  | .ok _, .error e => .error e
  | .ok i, .ok j => .ok ((stageOrder.drop i).take (j + 1 - i))

/-- Modelled from the spec: CoastalCalibRunner._get_stages_to_run (the
StagePlanner, spec section 4.1; the runner module is absent from the
source tree).  The bounds-resolved slice is returned as is when the
download feature is enabled or the "download" stage is itself an
explicit bound; otherwise "download" is removed from the slice. -/
def get_stages_to_run (stageOrder : List String) (startFrom stopAfter : Option String)
    (downloadEnabled : Bool) : Except String (List String) :=
  match planned_slice stageOrder startFrom stopAfter with
  | .error e => .error e
  | .ok selected =>
    if downloadEnabled || startFrom == some "download" || stopAfter == some "download" then
      .ok selected
    else
      .ok (selected.filter (fun s => s != "download"))

/-! Promoted-stage dependency preparation.  The filesystem is embedded
as an association list from absolute path to entry. -/

/-- A filesystem entry: a regular file with contents, or a symbolic
link to a target path. -/
inductive FsEntry where
  | file (content : String)
  | symlink (target : String)
deriving DecidableEq, Repr

/-- The working/parameter directories the dependency table draws on. -/
structure RunnerPaths where
  workDir : String
  parmNwm : String
  domain : String
deriving DecidableEq, Repr

/-- Modelled from the spec: the static promoted-stage dependency table
of CoastalCalibRunner._prepare_promoted_stage_deps (spec section 4.3;
the runner module is absent from the source tree).  Its single current
entry: the promoted schism_obs stage needs hgrid.gr3 in the working
directory, canonically found under parm_nwm/coastal/[domain]. -/
def promotedStageDeps (c : RunnerPaths) (stage : String) : List (String × String) :=
  if stage == "schism_obs" then
    [(c.workDir ++ "/hgrid.gr3", c.parmNwm ++ "/coastal/" ++ c.domain ++ "/hgrid.gr3")]
  else []

/-- Apply one dependency rule (target path, canonical source path): do
nothing when the target already exists, silently skip when the
canonical source is absent, otherwise create the symlink. -/
def prepareDep (fs : List (String × FsEntry)) (dep : String × String) :
    List (String × FsEntry) :=
  if (fs.lookup dep.1).isSome then fs
  else
    match fs.lookup dep.2 with
    | none => fs
    | some _ => (dep.1, FsEntry.symlink dep.2) :: fs

/-- Modelled from the spec: CoastalCalibRunner._prepare_promoted_stage_deps
(the DependencyPreparer, spec section 4.3; the runner module is absent
from the source tree).  Every rule of the table for the given stage is
applied to the filesystem. -/
def prepare_promoted_stage_deps (c : RunnerPaths) (stage : String)
    (fs : List (String × FsEntry)) : List (String × FsEntry) :=
  (promotedStageDeps c stage).foldl prepareDep fs

/-! Concrete pipeline data used by witnesses and counterexamples:
the SCHISM stage order (tests/test_runner.py lines 96-108) and the
container affinity exercised by the partitioning tests (schism_obs,
schism_plot and download are host-side, all other SCHISM stages are
containerized). -/

/-- The SCHISM stage order (tests/test_runner.py lines 96-108). -/
def schismStageOrder : List String :=
  ["download", "pre_forcing", "nwm_forcing", "post_forcing", "update_params",
   "schism_obs", "boundary_conditions", "pre_schism", "schism_run", "post_schism",
   "schism_plot"]

/-- Container affinity of the SCHISM stages (tests/test_runner.py
lines 179-206): download, schism_obs and schism_plot are host-side
python stages, the rest run in the container. -/
def schismContainerized (s : String) : Bool :=
  !(s == "download" || s == "schism_obs" || s == "schism_plot")

/-- The planned SCHISM stages with download disabled (the test fixture
default): the full order minus the download stage. -/
def schismRunStages : List String :=
  ["pre_forcing", "nwm_forcing", "post_forcing", "update_params", "schism_obs",
   "boundary_conditions", "pre_schism", "schism_run", "post_schism", "schism_plot"]

example :
    split_stages_for_submit schismContainerized schismRunStages =
      (["schism_obs"],
       ["pre_forcing", "nwm_forcing", "post_forcing", "update_params",
        "boundary_conditions", "pre_schism", "schism_run", "post_schism"],
       ["schism_plot"]) := by decide

example :
    get_stages_to_run schismStageOrder none none false =
      .ok schismRunStages := by rfl

example :
    get_stages_to_run schismStageOrder (some "nonexistent") none false =
      .error "Unknown stage: nonexistent" := by rfl

example :
    get_stages_to_run schismStageOrder (some "boundary_conditions") none true =
      .ok ["boundary_conditions", "pre_schism", "schism_run", "post_schism",
           "schism_plot"] := by rfl

example : parse_state " cancelled by 1023 " = JobState.CANCELLED := by decide
example : parse_state "running" = JobState.RUNNING := by decide
example : parse_state "gibberish" = JobState.UNKNOWN := by decide
example : splitStr '|' "a|b||c" = ["a", "b", "", "c"] := by decide
example : intFromStr? "0" = some 0 := by decide
example :
    sacctStatusOf "123" ⟨0, "123|job|COMPLETED|n1|0:0|00:01:00|None"⟩ =
      some { job_id := "123", name := "job", state := .COMPLETED, node_list := "n1",
             exit_code := some 0, elapsed_time := "00:01:00", reason := "None" } := by
  decide

/-! ## Theorems: SLURM state parsing (C10) -/

/-- Round-trip: the enum lookup recovers each state from its value. -/
theorem jobStateOfString_jobStateStr (st : JobState) :
    jobStateOfString (jobStateStr st) = some st := by
  cases st <;> rfl

/-- The only state value beginning with CANCELLED is CANCELLED itself. -/
theorem eq_cancelled_of_startsWith (st : JobState)
    (h : strStartsWith "CANCELLED" (jobStateStr st) = true) :
    st = JobState.CANCELLED := by
  cases st <;> revert h <;> decide

/-- Claim C10: state parsing is total — parse_state is a function
defined on every string; a string whose stripped upper-cased form
begins with CANCELLED parses to CANCELLED, a string whose stripped
upper-cased form equals a known state value parses to that state, and
every other string parses to UNKNOWN. -/
theorem parse_state_total_spec (s : String) :
    (strStartsWith "CANCELLED" (strToUpper (strTrim s)) = true →
      parse_state s = JobState.CANCELLED)
    ∧ (∀ st : JobState, jobStateStr st = strToUpper (strTrim s) → parse_state s = st)
    ∧ (strStartsWith "CANCELLED" (strToUpper (strTrim s)) = false →
        jobStateOfString (strToUpper (strTrim s)) = none →
        parse_state s = JobState.UNKNOWN) := by
  refine ⟨fun h => ?_, fun st h => ?_, fun h1 h2 => ?_⟩
  · simp only [parse_state]
    rw [if_pos h]
  · by_cases hc : strStartsWith "CANCELLED" (strToUpper (strTrim s)) = true
    · have hst : st = JobState.CANCELLED := eq_cancelled_of_startsWith st (by rw [h]; exact hc)
      subst hst
      simp only [parse_state]
      rw [if_pos hc]
    · simp only [parse_state]
      rw [if_neg hc, ← h, jobStateOfString_jobStateStr]
  · simp only [parse_state]
    rw [if_neg (by simp [h1]), h2]

/-- Witness for C10 at concrete inputs: a suffixed CANCELLED form and a
plain known state. -/
theorem parse_state_total_spec_witness :
    parse_state " cancelled by 1023" = JobState.CANCELLED
    ∧ parse_state "node_fail" = JobState.NODE_FAIL :=
  ⟨(parse_state_total_spec " cancelled by 1023").1 (by decide),
   (parse_state_total_spec "node_fail").2.1 JobState.NODE_FAIL (by decide)⟩

/-! ## Theorems: polling status resolution (C3, C7) -/

/-- Claim C3: when the sacct phase of a poll yields a status in the
terminal set, get_job_status returns exactly that status whatever the
squeue response would be (squeue is not consulted); and when the sacct
phase yields no status or a non-terminal one, the result is the
squeue-consulting phase. -/
theorem sacct_terminal_authoritative :
    (∀ (jobId : String) (r : ProcResult) (st : JobStatus)
        (squeue : Except Unit ProcResult),
      sacctStatusOf jobId r = some st →
      isTerminalState st.state = true →
      get_job_status jobId (Except.ok r) squeue = Except.ok st)
    ∧ (∀ (jobId : String) (r : ProcResult) (squeue : Except Unit ProcResult),
        (∀ st, sacctStatusOf jobId r = some st → isTerminalState st.state = false) →
        get_job_status jobId (Except.ok r) squeue =
          squeuePhase jobId (sacctStatusOf jobId r) squeue) := by
  constructor
  · intro jobId r st squeue hs ht
    simp only [get_job_status, hs, ht, if_true]
  · intro jobId r squeue h
    simp only [get_job_status]
    cases hs : sacctStatusOf jobId r with
    | none => rfl
    | some st => simp [h st hs]

/-- sacct response reporting COMPLETED for job 123. -/
def sacctRespC3 : ProcResult := ⟨0, "123|job|COMPLETED|n1|0:0|00:01:00|None"⟩

/-- squeue response that (contradictorily) still reports RUNNING. -/
def squeueRespC3 : ProcResult := ⟨0, "123|job|RUNNING|n1|None"⟩

/-- The parsed terminal sacct status of job 123. -/
def stC3 : JobStatus :=
  { job_id := "123", name := "job", state := .COMPLETED, node_list := "n1",
    exit_code := some 0, elapsed_time := "00:01:00", reason := "None" }

/-- Witness for C3: with sacct reporting COMPLETED and squeue still
reporting RUNNING, the returned status is the sacct one. -/
theorem sacct_terminal_authoritative_witness :
    sacctStatusOf "123" sacctRespC3 = some stC3
    ∧ isTerminalState stC3.state = true
    ∧ get_job_status "123" (Except.ok sacctRespC3) (Except.ok squeueRespC3) =
        Except.ok stC3 :=
  ⟨by decide, by decide,
   sacct_terminal_authoritative.1 "123" sacctRespC3 stC3 (Except.ok squeueRespC3)
     (by decide) (by decide)⟩

/-- Claim C7 counterexample: during an individual poll, an unavailable
scheduler command (the binary cannot be launched at all) does raise —
the launch failure propagates out of get_job_status instead of being
converted into a status. -/
theorem get_job_status_unavailable_raises :
    get_job_status "123" (Except.error ()) (Except.error ()) = Except.error () := rfl

/-- Claim C7 (amended): a scheduler probe failure raises the hard
"SLURM commands not available" error exactly at controller
initialization pre-flight; during a poll, scheduler commands that run
but fail or report nothing (non-zero exit or empty output) never
raise — the poll falls back to the sacct-derived status of the current
poll when one exists and otherwise to a status with state UNKNOWN —
while a command that cannot be launched at all still propagates. -/
theorem slurm_unavailability_handling :
    (check_slurm_available (Except.error ()) =
      Except.error "SLURM commands not available. Ensure you are on a cluster with SLURM.")
    ∧ (∀ pr : ProcResult, pr.rc ≠ 0 →
        check_slurm_available (Except.ok pr) =
          Except.error "SLURM commands not available. Ensure you are on a cluster with SLURM.")
    ∧ (∀ pr : ProcResult, pr.rc = 0 → check_slurm_available (Except.ok pr) = Except.ok ())
    ∧ (∀ (jobId : String) (r1 r2 : ProcResult),
        ∃ st, get_job_status jobId (Except.ok r1) (Except.ok r2) = Except.ok st)
    ∧ (∀ (jobId : String) (r1 r2 : ProcResult),
        sacctStatusOf jobId r1 = none →
        (r2.rc == 0 && strTrim r2.stdout != "") = false →
        get_job_status jobId (Except.ok r1) (Except.ok r2) =
          Except.ok { job_id := jobId, state := JobState.UNKNOWN })
    ∧ (∀ (jobId : String) (r1 r2 : ProcResult) (st : JobStatus),
        sacctStatusOf jobId r1 = some st →
        isTerminalState st.state = false →
        (r2.rc == 0 && strTrim r2.stdout != "") = false →
        get_job_status jobId (Except.ok r1) (Except.ok r2) = Except.ok st) := by
  refine ⟨rfl, fun pr h => ?_, fun pr h => ?_, fun jobId r1 r2 => ?_,
    fun jobId r1 r2 hs hq => ?_, fun jobId r1 r2 st hs ht hq => ?_⟩
  · simp [check_slurm_available, h]
  · simp [check_slurm_available, h]
  · cases hs : sacctStatusOf jobId r1 with
    | none =>
      cases hq : (r2.rc == 0 && strTrim r2.stdout != "") with
      | true =>
        exact ⟨parseSqueueStatus r2.stdout, by simp [get_job_status, hs, squeuePhase, hq]⟩
      | false =>
        exact ⟨{ job_id := jobId, state := JobState.UNKNOWN },
          by simp [get_job_status, hs, squeuePhase, hq]⟩
    | some st =>
      cases ht : isTerminalState st.state with
      | true => exact ⟨st, by simp [get_job_status, hs, ht]⟩
      | false =>
        cases hq : (r2.rc == 0 && strTrim r2.stdout != "") with
        | true =>
          exact ⟨parseSqueueStatus r2.stdout, by simp [get_job_status, hs, ht, squeuePhase, hq]⟩
        | false => exact ⟨st, by simp [get_job_status, hs, ht, squeuePhase, hq]⟩
  · simp [get_job_status, hs, squeuePhase, hq]
  · simp [get_job_status, hs, ht, squeuePhase, hq]

/-- Witness for C7 (amended) at concrete inputs: a failing probe, and
a poll whose sacct phase sees nothing with a silent squeue. -/
theorem slurm_unavailability_handling_witness :
    ((⟨1, ""⟩ : ProcResult).rc ≠ 0
      ∧ check_slurm_available (Except.ok ⟨1, ""⟩) =
          Except.error "SLURM commands not available. Ensure you are on a cluster with SLURM.")
    ∧ get_job_status "9" (Except.ok ⟨1, ""⟩) (Except.ok ⟨1, ""⟩) =
        Except.ok { job_id := "9", state := JobState.UNKNOWN } :=
  ⟨⟨by decide, slurm_unavailability_handling.2.1 ⟨1, ""⟩ (by decide)⟩,
   slurm_unavailability_handling.2.2.2.2.1 "9" ⟨1, ""⟩ ⟨1, ""⟩ (by decide) (by decide)⟩

/-! ## Theorems: the wait loop (C6) -/

/-- The poll loop stops at the first poll index satisfying the exit
condition and returns the status observed there. -/
theorem wait_poll_stop (sts : Nat → JobStatus) (interval : Nat) (timeout : Option Nat) :
    ∀ (d n fuel : Nat),
      stopCond sts interval timeout (n + d) = true →
      (∀ m, m < d → stopCond sts interval timeout (n + m) = false) →
      d < fuel →
      wait_poll sts interval timeout n fuel = some (sts (n + d)) := by
  intro d
  induction d with
  | zero =>
    intro n fuel h _ hf
    cases fuel with
    | zero => omega
    | succ f =>
      simp only [Nat.add_zero] at h ⊢
      simp only [stopCond, Bool.or_eq_true] at h
      rcases h with h | h
      · simp [wait_poll, h]
      · cases ht : isTerminalState (sts n).state with
        | true => simp [wait_poll, ht]
        | false => simp [wait_poll, ht, h]
  | succ d ih =>
    intro n fuel h hm hf
    cases fuel with
    | zero => omega
    | succ f =>
      have h0 : stopCond sts interval timeout n = false := by
        have := hm 0 (by omega)
        simpa using this
      rw [stopCond, Bool.or_eq_false_iff] at h0
      obtain ⟨hA, hB⟩ := h0
      simp only [wait_poll, hA, hB, Bool.false_eq_true, if_false]
      have harr : n + (d + 1) = (n + 1) + d := by omega
      rw [harr] at h ⊢
      exact ih (n + 1) f h
        (fun m hm2 => by
          have := hm (m + 1) (by omega)
          simpa [show n + (m + 1) = (n + 1) + m by omega] using this)
        (by omega)

/-- Claim C6: wait_for_job polls until the first index where a
terminal state is observed or the soft timeout has elapsed, and
returns the status observed there without raising; in particular, if
the status it returns is non-terminal, the reason it stopped was the
elapsed timeout (the soft-timeout return), never an error. -/
theorem wait_for_job_soft (sts : Nat → JobStatus) (interval : Nat)
    (timeout : Option Nat) (n0 fuel : Nat) :
    stopCond sts interval timeout n0 = true →
    (∀ m, m < n0 → stopCond sts interval timeout m = false) →
    n0 < fuel →
    wait_for_job sts interval timeout fuel = some (sts n0)
    ∧ (isTerminalState (sts n0).state = false →
        timeoutHit timeout (n0 * interval) = true) := by
  intro h hm hf
  constructor
  · have := wait_poll_stop sts interval timeout n0 0 fuel (by simpa using h)
      (fun m hm2 => by simpa using hm m hm2) hf
    simpa [wait_for_job] using this
  · intro hterm
    have h' := h
    rw [stopCond, Bool.or_eq_true] at h'
    rcases h' with h1 | h1
    · rw [hterm] at h1
      exact absurd h1 (by simp)
    · exact h1

/-- A poll sequence that reports RUNNING twice, then COMPLETED. -/
def pollSeqW : Nat → JobStatus := fun n =>
  if n < 2 then { job_id := "7", state := JobState.RUNNING }
  else { job_id := "7", state := JobState.COMPLETED }

/-- Witness for C6 at a concrete poll sequence, interval 30 and a
3600-second timeout: the loop returns the first terminal status, the
one observed at poll 2. -/
theorem wait_for_job_soft_witness :
    stopCond pollSeqW 30 (some 3600) 2 = true
    ∧ (∀ m, m < 2 → stopCond pollSeqW 30 (some 3600) m = false)
    ∧ wait_for_job pollSeqW 30 (some 3600) 10 = some (pollSeqW 2) :=
  ⟨by decide, by decide,
   (wait_for_job_soft pollSeqW 30 (some 3600) 2 10 (by decide) (by decide) (by decide)).1⟩

/-! ## Theorems: external-process failure carrying stderr (C9) -/

/-- The characters of a 2001-character standard-error stream. -/
def bigStderrData : List Char := List.replicate 2001 'a'

/-- A 2001-character standard-error stream. -/
def bigStderr : String := ⟨bigStderrData⟩

/-- The carried failure message of a failing shell-script run is built
from the full captured standard error. -/
theorem run_shell_script_error_eq (p : String) (rc : Int) (stderr : String)
    (h : rc ≠ 0) :
    (run_shell_script_model p rc stderr).2 =
      Except.error ("Script " ++ p ++ " failed: " ++ stderr) := by
  simp [run_shell_script_model, h]

/-- The characters of a truncated stream. -/
theorem lastChars_data (n : Nat) (s : String) :
    (lastChars n s).data = s.data.drop (s.data.length - n) := rfl

/-- Claim C9 counterexample: at a concrete failing script run whose
captured standard error has 2001 characters, the raised failure
carries the full standard-error stream, whose length differs from the
2000-character truncation — so the carried stream is not truncated
(only the logged copy is). -/
theorem run_shell_script_carries_full_stderr :
    (run_shell_script_model "run.sh" 1 bigStderr).2 =
      Except.error ("Script " ++ "run.sh" ++ " failed: " ++ bigStderr)
    ∧ bigStderr.data.length ≠ (lastChars 2000 bigStderr).data.length := by
  constructor
  · exact run_shell_script_error_eq "run.sh" 1 bigStderr (by decide)
  · have hd : bigStderr.data = bigStderrData := rfl
    have hb : bigStderrData = List.replicate 2001 'a' := rfl
    have h1 : bigStderr.data.length = 2001 := by
      rw [hd, hb, List.length_replicate]
    have h2 : (lastChars 2000 bigStderr).data.length = 2000 := by
      rw [lastChars_data, List.length_drop, h1]
    omega

/-- Claim C9 (amended): a non-zero exit code of a stage-launched
external process (shell script or container command) raises a stage
failure carrying the full captured standard-error stream, while the
copy of that stream written to the execution log is truncated to its
last 2000 characters; a zero exit code raises nothing. -/
theorem stage_process_failure_semantics :
    (∀ (p : String) (rc : Int) (stderr : String), rc ≠ 0 →
      (run_shell_script_model p rc stderr).2 =
        Except.error ("Script " ++ p ++ " failed: " ++ stderr)
      ∧ (stderr ≠ "" →
          ("STDERR: " ++ lastChars 2000 stderr) ∈ (run_shell_script_model p rc stderr).1))
    ∧ (∀ (command : List String) (rc : Int) (stderr : String), rc ≠ 0 →
        (run_singularity_model command rc stderr).2 =
          Except.error ("Singularity command failed: " ++ stderr)
        ∧ ("Singularity command failed: " ++ lastChars 2000 stderr) ∈
            (run_singularity_model command rc stderr).1)
    ∧ (∀ (p : String) (stderr : String),
        (run_shell_script_model p 0 stderr).2 = Except.ok ()) := by
  refine ⟨fun p rc stderr h => ⟨?_, fun hs => ?_⟩, fun command rc stderr h => ⟨?_, ?_⟩,
    fun p stderr => rfl⟩
  · simp [run_shell_script_model, h]
  · simp [run_shell_script_model, h, hs]
  · simp [run_singularity_model, h]
  · simp [run_singularity_model, h]

/-- Witness for C9 (amended) at a concrete failing script. -/
theorem stage_process_failure_semantics_witness :
    (run_shell_script_model "s.sh" 2 "boom").2 =
      Except.error ("Script " ++ "s.sh" ++ " failed: " ++ "boom")
    ∧ ("STDERR: " ++ lastChars 2000 "boom") ∈ (run_shell_script_model "s.sh" 2 "boom").1 :=
  ⟨(stage_process_failure_semantics.1 "s.sh" 2 "boom" (by decide)).1,
   (stage_process_failure_semantics.1 "s.sh" 2 "boom" (by decide)).2 (by decide)⟩

/-! ## Theorems: submission partitioning (C1, C2) -/

/-- The pre-span part and the trailing non-containerized run
reassemble the input. -/
theorem split_decomp (isC : String → Bool) (stages : List String) :
    (stages.reverse.dropWhile (fun s => !isC s)).reverse
      ++ (stages.reverse.takeWhile (fun s => !isC s)).reverse = stages := by
  rw [← List.reverse_append, List.takeWhile_append_dropWhile, List.reverse_reverse]

/-- dropWhile never consumes past an element failing the predicate:
the tail starting at such an element survives as a suffix. -/
theorem suffix_dropWhile {α : Type} (p : α → Bool) (x : α) (hx : p x = false) :
    ∀ (u v : List α), x :: v <:+ List.dropWhile p (u ++ x :: v) := by
  intro u
  induction u with
  | nil =>
    intro v
    rw [List.nil_append, List.dropWhile_cons, hx]
    simp
  | cons a u ih =>
    intro v
    rw [List.cons_append, List.dropWhile_cons]
    cases ha : p a with
    | true => simpa using ih v
    | false =>
      simp only [Bool.false_eq_true, if_false]
      exact (List.suffix_append u (x :: v)).trans (List.suffix_cons a _)

/-- Claim C1 counterexample: on the planned SCHISM pipeline (the
spec's scenario A input), concatenating the three partition groups
does not reproduce the input order — the promoted schism_obs stage
moves ahead of the containerized block. -/
theorem split_reorders_promoted :
    ((split_stages_for_submit schismContainerized schismRunStages).1
      ++ (split_stages_for_submit schismContainerized schismRunStages).2.1
      ++ (split_stages_for_submit schismContainerized schismRunStages).2.2)
      ≠ schismRunStages := by decide

/-- Claim C1 (amended): for duplicate-free inputs the three groups are
mutually exclusive (their concatenation is duplicate-free), the
concatenation is a permutation of the input — no stage lost or
duplicated — each individual group preserves the input's relative
order (it is a subsequence of the input), and the job group holds
only containerized stages, hence at least one when non-empty; the
concatenation itself may reorder promoted stages ahead of the job
block. -/
theorem split_stages_partition (isC : String → Bool) (stages : List String)
    (hnd : stages.Nodup) :
    ((split_stages_for_submit isC stages).1 ++ (split_stages_for_submit isC stages).2.1
        ++ (split_stages_for_submit isC stages).2.2).Perm stages
    ∧ ((split_stages_for_submit isC stages).1 ++ (split_stages_for_submit isC stages).2.1
        ++ (split_stages_for_submit isC stages).2.2).Nodup
    ∧ List.Sublist (split_stages_for_submit isC stages).1 stages
    ∧ List.Sublist (split_stages_for_submit isC stages).2.1 stages
    ∧ List.Sublist (split_stages_for_submit isC stages).2.2 stages
    ∧ (∀ s ∈ (split_stages_for_submit isC stages).2.1, isC s = true)
    ∧ ((split_stages_for_submit isC stages).2.1 ≠ [] →
        ∃ s, s ∈ (split_stages_for_submit isC stages).2.1 ∧ isC s = true) := by
  cases hany : stages.any isC with
  | false =>
    simp only [split_stages_for_submit, hany, Bool.false_eq_true, if_false]
    refine ⟨by simp, by simp [hnd], List.Sublist.refl stages, List.nil_sublist stages,
      List.nil_sublist stages, by simp, by simp⟩
  | true =>
    simp only [split_stages_for_submit, hany, if_true]
    have hdecomp := split_decomp isC stages
    have hperm :
        ((stages.reverse.dropWhile (fun s => !isC s)).reverse.filter (fun s => !isC s)
          ++ (stages.reverse.dropWhile (fun s => !isC s)).reverse.filter isC).Perm
          (stages.reverse.dropWhile (fun s => !isC s)).reverse := by
      have h1 := List.filter_append_perm (fun s => !isC s)
        (stages.reverse.dropWhile (fun s => !isC s)).reverse
      simpa only [Bool.not_not] using h1
    have hfull :
        (((stages.reverse.dropWhile (fun s => !isC s)).reverse.filter (fun s => !isC s)
          ++ (stages.reverse.dropWhile (fun s => !isC s)).reverse.filter isC)
          ++ (stages.reverse.takeWhile (fun s => !isC s)).reverse).Perm stages := by
      have h2 := hperm.append_right (stages.reverse.takeWhile (fun s => !isC s)).reverse
      rwa [hdecomp] at h2
    have hrest : List.Sublist (stages.reverse.dropWhile (fun s => !isC s)).reverse stages := by
      have h := List.sublist_append_left
        (stages.reverse.dropWhile (fun s => !isC s)).reverse
        (stages.reverse.takeWhile (fun s => !isC s)).reverse
      rwa [hdecomp] at h
    have hpost : List.Sublist (stages.reverse.takeWhile (fun s => !isC s)).reverse stages := by
      have h := List.sublist_append_right
        (stages.reverse.dropWhile (fun s => !isC s)).reverse
        (stages.reverse.takeWhile (fun s => !isC s)).reverse
      rwa [hdecomp] at h
    refine ⟨hfull, hfull.nodup_iff.mpr hnd, ?_, ?_, hpost, ?_, ?_⟩
    · exact (List.filter_sublist _).trans hrest
    · exact (List.filter_sublist _).trans hrest
    · intro s hs
      exact List.of_mem_filter hs
    · intro hne
      obtain ⟨s, hs⟩ := List.exists_mem_of_ne_nil _ hne
      exact ⟨s, hs, List.of_mem_filter hs⟩

/-- Witness for C1 (amended) at the planned SCHISM pipeline. -/
theorem split_stages_partition_witness :
    schismRunStages.Nodup
    ∧ ((split_stages_for_submit schismContainerized schismRunStages).1
        ++ (split_stages_for_submit schismContainerized schismRunStages).2.1
        ++ (split_stages_for_submit schismContainerized schismRunStages).2.2).Perm
        schismRunStages :=
  ⟨by decide, (split_stages_partition schismContainerized schismRunStages (by decide)).1⟩

/-- Claim C2: a non-containerized stage immediately between two
containerized stages lands in pre_job and never in job; and when no
stage is containerized, the whole input is pre_job with job and
post_job empty. -/
theorem sandwiched_stage_promoted :
    (∀ (isC : String → Bool) (l₁ l₂ : List String) (c₁ b c₂ : String),
      isC c₁ = true → isC c₂ = true → isC b = false →
      b ∈ (split_stages_for_submit isC (l₁ ++ c₁ :: b :: c₂ :: l₂)).1
      ∧ b ∉ (split_stages_for_submit isC (l₁ ++ c₁ :: b :: c₂ :: l₂)).2.1)
    ∧ (∀ (isC : String → Bool) (stages : List String),
        stages.any isC = false →
        split_stages_for_submit isC stages = (stages, [], [])) := by
  constructor
  · intro isC l₁ l₂ c₁ b c₂ hc1 hc2 hb
    have hany : (l₁ ++ c₁ :: b :: c₂ :: l₂).any isC = true :=
      List.any_eq_true.mpr ⟨c₁, by simp, hc1⟩
    simp only [split_stages_for_submit, hany, if_true]
    have hrev : (l₁ ++ c₁ :: b :: c₂ :: l₂).reverse
        = l₂.reverse ++ c₂ :: (b :: c₁ :: l₁.reverse) := by
      simp
    have hsuf := suffix_dropWhile (fun s => !isC s) c₂ (by simp [hc2])
      l₂.reverse (b :: c₁ :: l₁.reverse)
    have hbdrop : b ∈ ((l₁ ++ c₁ :: b :: c₂ :: l₂).reverse.dropWhile (fun s => !isC s)) := by
      rw [hrev]
      exact hsuf.subset (by simp)
    have hbrest :
        b ∈ ((l₁ ++ c₁ :: b :: c₂ :: l₂).reverse.dropWhile (fun s => !isC s)).reverse := by
      rwa [List.mem_reverse]
    constructor
    · exact List.mem_filter.mpr ⟨hbrest, by simp [hb]⟩
    · intro hmem
      have := List.of_mem_filter hmem
      rw [hb] at this
      cases this
  · intro isC stages h
    simp [split_stages_for_submit, h]

/-- Witness for C2 at the SCHISM pipeline: schism_obs sits immediately
between the containerized post_forcing and boundary_conditions stages
and is promoted to pre_job. -/
theorem sandwiched_stage_promoted_witness :
    (schismContainerized "post_forcing" = true
      ∧ schismContainerized "boundary_conditions" = true
      ∧ schismContainerized "schism_obs" = false)
    ∧ "schism_obs" ∈ (split_stages_for_submit schismContainerized
        (["pre_forcing", "nwm_forcing", "post_forcing"]
          ++ "post_forcing" :: "schism_obs" :: "boundary_conditions"
          :: ["pre_schism", "schism_run", "post_schism", "schism_plot"])).1 :=
  ⟨⟨by decide, by decide, by decide⟩,
   (sandwiched_stage_promoted.1 schismContainerized
      ["pre_forcing", "nwm_forcing", "post_forcing"]
      ["pre_schism", "schism_run", "post_schism", "schism_plot"]
      "post_forcing" "schism_obs" "boundary_conditions"
      (by decide) (by decide) (by decide)).1⟩

/-! ## Theorems: stage planning (C4, C5) -/

/-- Bool containment gives propositional membership. -/
theorem mem_of_contains {l : List String} {s : String} (h : l.contains s = true) :
    s ∈ l := by
  rcases List.contains_iff_exists_mem_beq.mp h with ⟨x, hx, hbeq⟩
  exact (eq_of_beq hbeq) ▸ hx

/-- The element at the index found for an equality test is that very
element. -/
theorem getElem?_findIdx_beq (l : List String) (s : String) (h : l.contains s = true) :
    l[l.findIdx (fun x => x == s)]? = some s := by
  have hmem : s ∈ l := mem_of_contains h
  have hex : ∃ x ∈ l, (fun x => x == s) x := ⟨s, hmem, by simp⟩
  have h1 := List.findIdx_getElem?_eq_getElem_of_exists hex
  have h2 := List.findIdx_of_getElem?_eq_some h1
  rw [h1]
  exact congrArg some (eq_of_beq h2)

/-- An in-order bound resolves to the index of its first occurrence. -/
theorem resolveBound_some_ok {order : List String} {s : String} {dflt i : Nat}
    (h : resolveBound order (some s) dflt = .ok i) :
    order.contains s = true ∧ i = order.findIdx (fun x => x == s) := by
  simp only [resolveBound] at h
  cases hc : order.contains s with
  | false => rw [hc] at h; simp at h
  | true =>
    rw [hc] at h
    simp only [if_true] at h
    exact ⟨rfl, ((Except.ok.injEq _ _).mp h).symm⟩

/-- The head of a bounds slice starting at a bound's index is the
bound itself. -/
theorem drop_findIdx_head (order : List String) (s : String)
    (hc : order.contains s = true) :
    (order.drop (order.findIdx (fun x => x == s))).head? = some s := by
  rw [List.head?_drop]
  exact getElem?_findIdx_beq order s hc

/-- The last element of a non-degenerate bounds slice ending at a
bound's index is the bound itself. -/
theorem slice_getLast (order : List String) (s : String) (i : Nat)
    (hc : order.contains s = true)
    (hij : i ≤ order.findIdx (fun x => x == s)) :
    ((order.drop i).take (order.findIdx (fun x => x == s) + 1 - i)).getLast?
      = some s := by
  have hex : ∃ x ∈ order, (fun x => x == s) x := ⟨s, mem_of_contains hc, by simp⟩
  have hjlen : order.findIdx (fun x => x == s) < order.length :=
    List.findIdx_lt_length_of_exists hex
  rw [List.getLast?_eq_getElem?, List.length_take, List.length_drop]
  have hmin : min (order.findIdx (fun x => x == s) + 1 - i) (order.length - i)
      = order.findIdx (fun x => x == s) + 1 - i := by omega
  rw [hmin]
  have harith : order.findIdx (fun x => x == s) + 1 - i - 1
      = order.findIdx (fun x => x == s) - i := by omega
  rw [harith, List.getElem?_take, if_pos (by omega), List.getElem?_drop]
  have harith2 : i + (order.findIdx (fun x => x == s) - i)
      = order.findIdx (fun x => x == s) := by omega
  rw [harith2]
  exact getElem?_findIdx_beq order s hc

/-- Inversion of a successful planning run: both bounds resolved and
the result is the bounds slice, filtered of "download" exactly when
the keep condition is false. -/
theorem get_stages_ok_inv {order : List String} {sf sa : Option String} {d : Bool}
    {res : List String} (h : get_stages_to_run order sf sa d = .ok res) :
    ∃ i j, resolveBound order sf 0 = .ok i
      ∧ resolveBound order sa (order.length - 1) = .ok j
      ∧ ((d || sf == some "download" || sa == some "download") = true
          ∧ res = (order.drop i).take (j + 1 - i)
        ∨ (d || sf == some "download" || sa == some "download") = false
          ∧ res = ((order.drop i).take (j + 1 - i)).filter (fun s => s != "download")) := by
  cases h1 : resolveBound order sf 0 with
  | error e => simp [get_stages_to_run, planned_slice, h1] at h
  | ok i =>
    cases h2 : resolveBound order sa (order.length - 1) with
    | error e => simp [get_stages_to_run, planned_slice, h1, h2] at h
    | ok j =>
      refine ⟨i, j, rfl, rfl, ?_⟩
      cases hd : (d || sf == some "download" || sa == some "download") with
      | true =>
        left
        refine ⟨rfl, ?_⟩
        simp only [get_stages_to_run, planned_slice, h1, h2, hd, if_true] at h
        exact ((Except.ok.injEq _ _).mp h).symm
      | false =>
        right
        refine ⟨rfl, ?_⟩
        simp only [get_stages_to_run, planned_slice, h1, h2, hd, Bool.false_eq_true,
          if_false] at h
        exact ((Except.ok.injEq _ _).mp h).symm

/-- Claim C4 (amended): a bound name absent from the stage order makes
the planner fail with an "Unknown stage" error naming the value;
otherwise the result is always an order-preserving selection
(subsequence) of the stage order, and with the download feature
enabled it is exactly the contiguous slice from start_from (inclusive,
defaulting to the first stage) to stop_after (inclusive, defaulting to
the last) — beginning and ending at the bounds whenever it is
non-empty; with the download feature disabled the removal of a
non-bound "download" stage can break contiguity. -/
theorem get_stages_plan_bounds (order : List String) :
    (∀ (s : String) (sa : Option String) (d : Bool), order.contains s = false →
      get_stages_to_run order (some s) sa d = .error ("Unknown stage: " ++ s))
    ∧ (∀ (s : String) (d : Bool), order.contains s = false →
        get_stages_to_run order none (some s) d = .error ("Unknown stage: " ++ s))
    ∧ (∀ (sf sa : Option String) (res : List String),
        get_stages_to_run order sf sa true = .ok res → ∃ u v, order = u ++ res ++ v)
    ∧ (∀ (sf sa : Option String) (d : Bool) (res : List String),
        get_stages_to_run order sf sa d = .ok res → List.Sublist res order)
    ∧ (∀ (s : String) (sa : Option String) (res : List String),
        get_stages_to_run order (some s) sa true = .ok res → res ≠ [] →
        res.head? = some s)
    ∧ (∀ (sf : Option String) (s : String) (res : List String),
        get_stages_to_run order sf (some s) true = .ok res → res ≠ [] →
        res.getLast? = some s) := by
  refine ⟨fun s sa d hc => ?_, fun s d hc => ?_, fun sf sa res h => ?_,
    fun sf sa d res h => ?_, fun s sa res h hne => ?_, fun sf s res h hne => ?_⟩
  · simp only [get_stages_to_run, planned_slice, resolveBound, hc]
    rfl
  · simp only [get_stages_to_run, planned_slice, resolveBound, hc]
    rfl
  · obtain ⟨i, j, h1, h2, hcase⟩ := get_stages_ok_inv h
    rcases hcase with ⟨_, hres⟩ | ⟨hfalse, _⟩
    · subst hres
      refine ⟨order.take i, (order.drop i).drop (j + 1 - i), ?_⟩
      have e1 := List.take_append_drop (j + 1 - i) (order.drop i)
      have e2 := List.take_append_drop i order
      calc order = order.take i ++ order.drop i := e2.symm
        _ = order.take i
            ++ ((order.drop i).take (j + 1 - i) ++ (order.drop i).drop (j + 1 - i)) := by
              rw [e1]
        _ = order.take i
            ++ (order.drop i).take (j + 1 - i) ++ (order.drop i).drop (j + 1 - i) := by
              rw [List.append_assoc]
    · simp at hfalse
  · obtain ⟨i, j, h1, h2, hcase⟩ := get_stages_ok_inv h
    have hslice : List.Sublist ((order.drop i).take (j + 1 - i)) order :=
      (List.take_sublist _ _).trans (List.drop_sublist _ _)
    rcases hcase with ⟨_, hres⟩ | ⟨_, hres⟩
    · subst hres; exact hslice
    · subst hres; exact (List.filter_sublist _).trans hslice
  · obtain ⟨i, j, h1, h2, hcase⟩ := get_stages_ok_inv h
    obtain ⟨hc, hi⟩ := resolveBound_some_ok h1
    rcases hcase with ⟨_, hres⟩ | ⟨hfalse, _⟩
    · subst hres
      have hk0 : j + 1 - i ≠ 0 := fun h0 => hne (by rw [h0, List.take_zero])
      rw [List.head?_take, if_neg hk0, hi]
      exact drop_findIdx_head order s hc
    · simp at hfalse
  · obtain ⟨i, j, h1, h2, hcase⟩ := get_stages_ok_inv h
    obtain ⟨hc, hj⟩ := resolveBound_some_ok h2
    rcases hcase with ⟨_, hres⟩ | ⟨hfalse, _⟩
    · subst hres
      have hlen : 0 < ((order.drop i).take (j + 1 - i)).length := List.length_pos.mpr hne
      rw [List.length_take, List.length_drop] at hlen
      have hij : i ≤ j := by omega
      rw [hj]
      rw [hj] at hij
      exact slice_getLast order s i hc hij
    · simp at hfalse

/-- Witness for C4 (amended): an unknown stage bound errors, and a
known bound yields the slice beginning at that bound. -/
theorem get_stages_plan_bounds_witness :
    schismStageOrder.contains "nonexistent" = false
    ∧ get_stages_to_run schismStageOrder (some "nonexistent") none false =
        Except.error ("Unknown stage: " ++ "nonexistent")
    ∧ (["boundary_conditions", "pre_schism", "schism_run", "post_schism",
        "schism_plot"] : List String).head? = some "boundary_conditions" :=
  ⟨by decide,
   (get_stages_plan_bounds schismStageOrder).1 "nonexistent" none false (by decide),
   (get_stages_plan_bounds schismStageOrder).2.2.2.2.1 "boundary_conditions" none
     ["boundary_conditions", "pre_schism", "schism_run", "post_schism", "schism_plot"]
     (by rfl) (by decide)⟩

/-- A stage order holding the download stage strictly inside. -/
def downloadMidOrder : List String := ["pre_forcing", "download", "nwm_forcing"]

/-- Claim C4 counterexample: with the download feature disabled and
"download" strictly inside the bounds slice, the planner's result is
not a contiguous sub-sequence of the stage order. -/
theorem get_stages_noncontiguous :
    get_stages_to_run downloadMidOrder none none false =
      Except.ok ["pre_forcing", "nwm_forcing"]
    ∧ ¬ ∃ u v, downloadMidOrder = u ++ ["pre_forcing", "nwm_forcing"] ++ v := by
  constructor
  · rfl
  · rintro ⟨u, v, h⟩
    rcases u with _ | ⟨a, u⟩
    · simp [downloadMidOrder] at h
    · rcases u with _ | ⟨b, u⟩
      · simp [downloadMidOrder] at h
      · have hlen := congrArg List.length h
        simp [downloadMidOrder] at hlen
        omega

/-- Claim C5: with the download feature disabled and "download" not an
explicit bound, the planned stages never include "download"; with the
feature enabled the planner applies no download filtering at all (the
result is exactly the bounds slice, so "download" is retained subject
only to the bounds); and when "download" is itself the explicit start
or stop bound of a successful non-empty plan, it is retained even with
the feature disabled. -/
theorem download_exclusion (order : List String) :
    (∀ (sf sa : Option String) (res : List String),
      sf ≠ some "download" → sa ≠ some "download" →
      get_stages_to_run order sf sa false = .ok res → "download" ∉ res)
    ∧ (∀ sf sa : Option String,
        get_stages_to_run order sf sa true = planned_slice order sf sa)
    ∧ (∀ (sa : Option String) (res : List String),
        get_stages_to_run order (some "download") sa false = .ok res → res ≠ [] →
        "download" ∈ res)
    ∧ (∀ (sf : Option String) (res : List String),
        get_stages_to_run order sf (some "download") false = .ok res → res ≠ [] →
        "download" ∈ res) := by
  refine ⟨fun sf sa res hsf hsa h => ?_, fun sf sa => ?_, fun sa res h hne => ?_,
    fun sf res h hne => ?_⟩
  · obtain ⟨i, j, h1, h2, hcase⟩ := get_stages_ok_inv h
    have hbsf : (sf == some "download") = false := beq_eq_false_iff_ne.mpr hsf
    have hbsa : (sa == some "download") = false := beq_eq_false_iff_ne.mpr hsa
    rcases hcase with ⟨htrue, _⟩ | ⟨_, hres⟩
    · rw [hbsf, hbsa] at htrue
      simp at htrue
    · subst hres
      intro hmem
      have := (List.mem_filter.mp hmem).2
      simp at this
  · cases hp : planned_slice order sf sa with
    | error e => simp [get_stages_to_run, hp]
    | ok sel => simp [get_stages_to_run, hp]
  · obtain ⟨i, j, h1, h2, hcase⟩ := get_stages_ok_inv h
    obtain ⟨hc, hi⟩ := resolveBound_some_ok h1
    rcases hcase with ⟨_, hres⟩ | ⟨hfalse, _⟩
    · subst hres
      have hk0 : j + 1 - i ≠ 0 := fun h0 => hne (by rw [h0, List.take_zero])
      apply List.mem_of_mem_head?
      rw [List.head?_take, if_neg hk0, hi, drop_findIdx_head order "download" hc]
      rfl
    · simp at hfalse
  · obtain ⟨i, j, h1, h2, hcase⟩ := get_stages_ok_inv h
    obtain ⟨hc, hj⟩ := resolveBound_some_ok h2
    rcases hcase with ⟨_, hres⟩ | ⟨hfalse, _⟩
    · subst hres
      have hlen : 0 < ((order.drop i).take (j + 1 - i)).length := List.length_pos.mpr hne
      rw [List.length_take, List.length_drop] at hlen
      have hij : i ≤ j := by omega
      rw [hj] at hij ⊢
      exact List.mem_of_getLast?_eq_some (slice_getLast order "download" i hc hij)
    · simp at hfalse

/-- Witness for C5: on the SCHISM order with download disabled, the
full plan omits download; with download as its own start bound it is
retained. -/
theorem download_exclusion_witness :
    "download" ∉ schismRunStages
    ∧ "download" ∈ (schismStageOrder : List String)
    ∧ get_stages_to_run schismStageOrder (some "download") (some "download") false =
        Except.ok ["download"]
    ∧ "download" ∈ (["download"] : List String) :=
  ⟨by
    have h := (download_exclusion schismStageOrder).1 none none schismRunStages
      (by decide) (by decide)
      (by rfl : get_stages_to_run schismStageOrder none none false = .ok schismRunStages)
    exact h,
   by decide, by rfl,
   (download_exclusion schismStageOrder).2.2.1 (some "download") ["download"] (by rfl)
     (by decide)⟩

/-! ## Theorems: promoted-stage dependency preparation (C8) -/

/-- One dependency rule is idempotent, preserves every existing entry,
and silently skips when the canonical source is absent or the target
already present. -/
theorem prepareDep_spec (fs : List (String × FsEntry)) (dep : String × String) :
    prepareDep (prepareDep fs dep) dep = prepareDep fs dep
    ∧ (∀ (p : String) (e : FsEntry), fs.lookup p = some e →
        (prepareDep fs dep).lookup p = some e)
    ∧ ((fs.lookup dep.2).isNone = true → prepareDep fs dep = fs)
    ∧ ((fs.lookup dep.1).isSome = true → prepareDep fs dep = fs) := by
  refine ⟨?_, ?_, ?_, ?_⟩
  · cases ht : (fs.lookup dep.1).isSome with
    | true =>
      have h1 : prepareDep fs dep = fs := by simp [prepareDep, ht]
      rw [h1]
      exact h1
    | false =>
      cases hsrc : fs.lookup dep.2 with
      | none =>
        have h1 : prepareDep fs dep = fs := by simp [prepareDep, ht, hsrc]
        rw [h1]
        exact h1
      | some e =>
        have h1 : prepareDep fs dep = (dep.1, FsEntry.symlink dep.2) :: fs := by
          simp [prepareDep, ht, hsrc]
        rw [h1]
        have h2 : (((dep.1, FsEntry.symlink dep.2) :: fs).lookup dep.1).isSome = true := by
          simp
        simp [prepareDep, h2]
  · intro p e hp
    cases ht : (fs.lookup dep.1).isSome with
    | true => simpa [prepareDep, ht] using hp
    | false =>
      cases hsrc : fs.lookup dep.2 with
      | none => simpa [prepareDep, ht, hsrc] using hp
      | some e' =>
        have h1 : prepareDep fs dep = (dep.1, FsEntry.symlink dep.2) :: fs := by
          simp [prepareDep, ht, hsrc]
        rw [h1, List.lookup_cons]
        cases hpk : (p == dep.1) with
        | true =>
          rw [eq_of_beq hpk] at hp
          rw [hp] at ht
          simp at ht
        | false => simpa using hp
  · intro hn
    cases ht : (fs.lookup dep.1).isSome with
    | true => simp [prepareDep, ht]
    | false =>
      have hs2 : fs.lookup dep.2 = none := Option.isNone_iff_eq_none.mp hn
      simp [prepareDep, ht, hs2]
  · intro hsm
    simp [prepareDep, hsm]

/-- Claim C8: prepare_promoted_stage_deps is idempotent (a second call
changes nothing), never overwrites an existing filesystem entry, is a
no-op when every canonical source of the stage's rules is absent
(silent skip, no failure), and is a no-op when every required target
already exists. -/
theorem prepare_deps_idempotent (c : RunnerPaths) (stage : String)
    (fs : List (String × FsEntry)) :
    prepare_promoted_stage_deps c stage (prepare_promoted_stage_deps c stage fs)
      = prepare_promoted_stage_deps c stage fs
    ∧ (∀ (p : String) (e : FsEntry), fs.lookup p = some e →
        (prepare_promoted_stage_deps c stage fs).lookup p = some e)
    ∧ ((promotedStageDeps c stage).all (fun d => (fs.lookup d.2).isNone) = true →
        prepare_promoted_stage_deps c stage fs = fs)
    ∧ ((promotedStageDeps c stage).all (fun d => (fs.lookup d.1).isSome) = true →
        prepare_promoted_stage_deps c stage fs = fs) := by
  cases hs : (stage == "schism_obs") with
  | false =>
    have htab : promotedStageDeps c stage = [] := by simp [promotedStageDeps, hs]
    simp [prepare_promoted_stage_deps, htab]
  | true =>
    have htab : promotedStageDeps c stage
        = [(c.workDir ++ "/hgrid.gr3",
            c.parmNwm ++ "/coastal/" ++ c.domain ++ "/hgrid.gr3")] := by
      simp [promotedStageDeps, hs]
    simp only [prepare_promoted_stage_deps, htab, List.foldl_cons, List.foldl_nil,
      List.all_cons, List.all_nil, Bool.and_true]
    refine ⟨(prepareDep_spec fs (c.workDir ++ "/hgrid.gr3",
        c.parmNwm ++ "/coastal/" ++ c.domain ++ "/hgrid.gr3")).1,
      (prepareDep_spec fs (c.workDir ++ "/hgrid.gr3",
        c.parmNwm ++ "/coastal/" ++ c.domain ++ "/hgrid.gr3")).2.1,
      fun hn => (prepareDep_spec fs (c.workDir ++ "/hgrid.gr3",
        c.parmNwm ++ "/coastal/" ++ c.domain ++ "/hgrid.gr3")).2.2.1 hn,
      fun hsm => (prepareDep_spec fs (c.workDir ++ "/hgrid.gr3",
        c.parmNwm ++ "/coastal/" ++ c.domain ++ "/hgrid.gr3")).2.2.2 hsm⟩

/-- Concrete paths for the C8 witness. -/
def rpW : RunnerPaths := { workDir := "/w", parmNwm := "/p/parm", domain := "hawaii" }

/-- A filesystem where the hgrid target already exists. -/
def fsW : List (String × FsEntry) := [("/w/hgrid.gr3", FsEntry.file "existing hgrid")]

/-- Witness for C8: preparing schism_obs dependencies twice equals
once, and an existing hgrid.gr3 in the working directory is preserved
untouched. -/
theorem prepare_deps_idempotent_witness :
    prepare_promoted_stage_deps rpW "schism_obs"
        (prepare_promoted_stage_deps rpW "schism_obs" fsW)
      = prepare_promoted_stage_deps rpW "schism_obs" fsW
    ∧ (prepare_promoted_stage_deps rpW "schism_obs" fsW).lookup "/w/hgrid.gr3"
        = some (FsEntry.file "existing hgrid") :=
  ⟨(prepare_deps_idempotent rpW "schism_obs" fsW).1,
   (prepare_deps_idempotent rpW "schism_obs" fsW).2.1 "/w/hgrid.gr3"
     (FsEntry.file "existing hgrid") (by decide)⟩
